import Mathlib

/-!
Verification of the client-side tabular data pipeline of the data-analysis
dashboard: the row/value data model, the CSV parser (src/utils/dataParser.ts),
the filter engine (the DataFilter component), the box-plot statistics and the
facet transform (src/components/ChartRenderer.tsx, the FacetCharts component),
and the upload orchestration state machine (src/App.tsx).

Modelling conventions for the JavaScript source:
* A JS number is modelled by `JsNum`: NaN, +Infinity, -Infinity, or a finite
  rational.  The programs under study only combine numbers with comparisons
  and the coercions `Number(...)` / `parseFloat(...)`, so rationals are an
  exact model of every value actually produced from decimal text.
* `null` and `undefined` are merged into `Value.null`: every code path under
  study treats them identically (the filter rejects both before any use, and
  `Number(null) || 0` and `Number(undefined) || 0` are both `0`).
* String coercion of numbers (`String(x)`) prints finite rationals in decimal;
  for values parsed from decimal text this agrees with JS's shortest
  round-trip printing.
* `Number(string)` is modelled for trimmed decimal literals (optional sign,
  digits, fraction, exponent) and the case-sensitive `Infinity` literals;
  hexadecimal/octal/binary literals are not modelled (no theorem depends on
  them).
* `String.toLower` models `toLowerCase` on the ASCII range, which covers
  every comparison made by the claims.
-/

/-- A JavaScript number: NaN, the two infinities, or a finite value
(modelled exactly as a rational). -/
inductive JsNum where
  | nan : JsNum
  | posInf : JsNum
  | negInf : JsNum
  | fin (q : ℚ) : JsNum
deriving DecidableEq, Repr

/-- `isNaN` on a JS number. -/
def JsNum.isNaN : JsNum → Bool
  | .nan => true
  | _ => false

/-- JS `a < b` on numbers: any comparison with NaN is false, otherwise the
extended-real order. -/
def jsLtB : JsNum → JsNum → Bool
  | .nan, _ => false
  | _, .nan => false
  | .negInf, .negInf => false
  | .negInf, _ => true
  | _, .negInf => false
  | .posInf, _ => false
  | .fin _, .posInf => true
  | .fin a, .fin b => decide (a < b)

/-- JS `a > b` on numbers. -/
def jsGtB (a b : JsNum) : Bool := jsLtB b a

/-- JS `a >= b` on numbers: false if either side is NaN, otherwise `¬(a < b)`. -/
def jsGeB (a b : JsNum) : Bool :=
  if a.isNaN || b.isNaN then false else !(jsLtB a b)

/-- JS `a <= b` on numbers: false if either side is NaN, otherwise `¬(b < a)`. -/
def jsLeB (a b : JsNum) : Bool :=
  if a.isNaN || b.isNaN then false else !(jsLtB b a)

/-- JS `a == b` restricted to numbers (strict on the injected rationals,
NaN equal to nothing). -/
def jsNumEqB : JsNum → JsNum → Bool
  | .fin a, .fin b => decide (a = b)
  | .posInf, .posInf => true
  | .negInf, .negInf => true
  | _, _ => false

/-- A scalar cell value of a row: number, string, boolean, or null/undefined
(merged, see the module docstring). -/
inductive Value where
  | num (x : JsNum) : Value
  | str (s : String) : Value
  | bool (b : Bool) : Value
  | null : Value
deriving DecidableEq, Repr

/-- JS truthiness of a value (`if (v) ...`): false for null/undefined, NaN,
`0`, the empty string and `false`. -/
def truthy : Value → Bool
  | .null => false
  | .bool b => b
  | .str s => decide (s ≠ "")
  | .num .nan => false
  | .num (.fin q) => decide (q ≠ 0)
  | .num _ => true

/-- ASCII whitespace recognised by the model of `trim` (space, tab, CR, LF);
the few extra Unicode spaces JS also trims never occur in the claims. -/
def isWS (c : Char) : Bool :=
  c = ' ' || c = '\t' || c = '\n' || c = '\r'

/-- Model of `s.trim()`: drop whitespace at both ends.  Implemented over the
character list so that it evaluates inside the kernel. -/
def strTrim (s : String) : String :=
  ⟨((s.toList.dropWhile isWS).reverse.dropWhile isWS).reverse⟩

/-- Model of `s.toLowerCase()` on the ASCII range. -/
def strLower (s : String) : String :=
  ⟨s.toList.map Char.toLower⟩

/-- Split a character list at every occurrence of `sep` (JS
`s.split(sep)` for a one-character separator). -/
def splitSep (sep : Char) : List Char → List (List Char)
  | [] => [[]]
  | c :: rest =>
    let r := splitSep sep rest
    if c = sep then [] :: r
    else
      match r with
      | [] => [[c]]
      | h :: t => (c :: h) :: t

/-- JS `s.split(sep)` for a one-character separator. -/
def strSplit (s : String) (sep : Char) : List String :=
  (splitSep sep s.toList).map (fun l => ⟨l⟩)

/-- Numeric value of a list of decimal digit characters. -/
def digitsToNat (cs : List Char) : ℕ :=
  cs.foldl (fun acc c => 10 * acc + (c.toNat - 48)) 0

/-- Parse an unsigned decimal literal `digits [. digits] [e|E [+|-] digits]`
exactly as JS `Number` does after sign stripping; the result is the exact
value as an unreduced numerator/denominator pair (so that every arithmetic
step is on ℕ and evaluates inside the kernel); `none` means NaN. -/
def parseDec (cs : List Char) : Option (ℕ × ℕ) :=
  let ip := cs.takeWhile Char.isDigit
  let r1 := cs.dropWhile Char.isDigit
  let fp := match r1 with
    | '.' :: rest => rest.takeWhile Char.isDigit
    | _ => []
  let r2 := match r1 with
    | '.' :: rest => rest.dropWhile Char.isDigit
    | _ => r1
  if ip.isEmpty && fp.isEmpty then none
  else
    -- ip.fp = (ip * 10^|fp| + fp) / 10^|fp|
    let base : ℕ × ℕ := (digitsToNat ip * 10 ^ fp.length + digitsToNat fp, 10 ^ fp.length)
    match r2 with
    | [] => some base
    | 'e' :: rest => parseExp base rest
    | 'E' :: rest => parseExp base rest
    | _ => none
where
  /-- Parse the exponent part `[+|-] digits` and scale the base by `10^±e`. -/
  parseExp (base : ℕ × ℕ) (rest : List Char) : Option (ℕ × ℕ) :=
    let (neg, ds) := match rest with
      | '+' :: ds => (false, ds)
      | '-' :: ds => (true, ds)
      | ds => (false, ds)
    if ds.isEmpty || !ds.all Char.isDigit then none
    else some (if neg then (base.1, base.2 * 10 ^ digitsToNat ds)
               else (base.1 * 10 ^ digitsToNat ds, base.2))

/-- JS `Number(s)` for a string `s`: trim, empty means `0`, optional sign,
then a decimal literal or the (case-sensitive) `Infinity` literal;
anything else is NaN. -/
def jsStrToNumber (s : String) : JsNum :=
  let t := strTrim s
  if t = "" then .fin 0
  else
    let (neg, cs) := match t.toList with
      | '+' :: cs => (false, cs)
      | '-' :: cs => (true, cs)
      | cs => (false, cs)
    if cs = "Infinity".toList then (if neg then .negInf else .posInf)
    else match parseDec cs with
      | some (n, d) => .fin (if neg then -mkRat n d else mkRat n d)
      | none => .nan

/-- Decimal digits of `r/d` for a remainder `0 ≤ r < d`, by long division
with recursion fuel; 64 digits cover every value producible by the modelled
parsers. -/
def fracDigitsAux : ℕ → ℕ → ℕ → String
  | 0, _, _ => ""
  | fuel + 1, r, d =>
    if r = 0 then ""
    else toString (r * 10 / d) ++ fracDigitsAux fuel (r * 10 % d) d

/-- Decimal string of a nonnegative rational `n/d` (in lowest terms, as
stored in `ℚ`). -/
def ratToStringNN (n d : ℕ) : String :=
  if n % d = 0 then toString (n / d)
  else toString (n / d) ++ "." ++ fracDigitsAux 64 (n % d) d

/-- Decimal string of a rational, as JS prints a finite number parsed from
decimal text. -/
def ratToString (q : ℚ) : String :=
  if q.num < 0 then "-" ++ ratToStringNN (-q.num).toNat q.den
  else ratToStringNN q.num.toNat q.den

/-- JS `String(x)` for a number. -/
def jsNumToString : JsNum → String
  | .nan => "NaN"
  | .posInf => "Infinity"
  | .negInf => "-Infinity"
  | .fin q => ratToString q

/-- JS `String(v)` for a cell value. -/
def valueToString : Value → String
  | .str s => s
  | .bool b => if b then "true" else "false"
  | .null => "null"
  | .num x => jsNumToString x

/-- JS `Number(v)` for a cell value. -/
def toNumber : Value → JsNum
  | .num x => x
  | .str s => jsStrToNumber s
  | .bool b => .fin (if b then 1 else 0)
  | .null => .fin 0

/-- JS loose equality `v == s` where the right-hand side is a string (the
filter's comparison value is always a string): strings compare strictly,
numbers and booleans compare numerically after coercing the string,
null/undefined equal no string. -/
def looseEqB : Value → String → Bool
  | .str t, s => decide (t = s)
  | .num x, s => jsNumEqB x (jsStrToNumber s)
  | .bool b, s => jsNumEqB (.fin (if b then 1 else 0)) (jsStrToNumber s)
  | .null, _ => false

/-- A row: a JS object mapping column names to cell values, modelled as an
association list in key-insertion order. -/
abbrev Row := List (String × Value)

/-- Property read `row[k]`: the first binding of `k`, or null/undefined when
absent. -/
def rowGet (r : Row) (k : String) : Value :=
  match r.find? (fun p => decide (p.1 = k)) with
  | some p => p.2
  | none => Value.null

/-- JS substring test `s.includes(pat)`. -/
def strContains (s pat : String) : Bool := decide (pat.toList <:+: s.toList)

/-- JS prefix test `s.startsWith(pat)`. -/
def strStarts (s pat : String) : Bool := decide (pat.toList <+: s.toList)

/-- JS suffix test `s.endsWith(pat)`. -/
def strEnds (s pat : String) : Bool := decide (pat.toList <:+ s.toList)

/-- The filter operators of the DataFilter component. -/
inductive Op where
  | contains : Op
  | equals : Op
  | neq : Op
  | startsWith : Op
  | endsWith : Op
  | gt : Op
  | lt : Op
  | ge : Op
  | le : Op
deriving DecidableEq, Repr

/-- A filter predicate: `{ id, column, operator, value }` from the DataFilter
component (the id only drives UI lifecycle, never evaluation). -/
structure FilterPred where
  id : String
  column : String
  operator : Op
  value : String
deriving DecidableEq, Repr

/-- One predicate evaluation of the DataFilter component's `data.filter`
callback: null/undefined row values fail immediately; otherwise the operator
is interpreted over the lower-cased strings and the numeric coercions exactly
as in the source switch statement. -/
def evalPred (row : Row) (f : FilterPred) : Bool :=
  let rowValue := rowGet row f.column
  if rowValue = Value.null then false
  else
    let valStr := strLower (valueToString rowValue)
    let filterValStr := strLower f.value
    let valNum := toNumber rowValue
    let filterValNum := jsStrToNumber f.value
    match f.operator with
    | .contains => strContains valStr filterValStr
    | .equals => looseEqB rowValue f.value || decide (valStr = filterValStr)
    | .neq => !(looseEqB rowValue f.value)
    | .startsWith => strStarts valStr filterValStr
    | .endsWith => strEnds valStr filterValStr
    | .gt => if !valNum.isNaN && !filterValNum.isNaN then jsGtB valNum filterValNum else false
    | .lt => if !valNum.isNaN && !filterValNum.isNaN then jsLtB valNum filterValNum else false
    | .ge => if !valNum.isNaN && !filterValNum.isNaN then jsGeB valNum filterValNum else false
    | .le => if !valNum.isNaN && !filterValNum.isNaN then jsLeB valNum filterValNum else false

/-- The filter engine (the DataFilter effect body): an empty filter list
publishes the input dataset itself, otherwise the rows satisfying every
predicate, in input order. -/
def filterData (data : List Row) (filters : List FilterPred) : List Row :=
  if filters.isEmpty then data
  else data.filter (fun row => filters.all (fun f => evalPred row f))

/-- Numeric comparison dispatch of the four order operators, exactly as the
corresponding switch cases compare `valNum` with `filterValNum`. -/
def numCmpB : Op → JsNum → JsNum → Bool
  | .gt, a, b => jsGtB a b
  | .lt, a, b => jsLtB a b
  | .ge, a, b => jsGeB a b
  | .le, a, b => jsLeB a b
  | _, _, _ => false

/-- C1: the filter engine retains a row iff the row satisfies every predicate
of the filter set; an empty filter set returns the input dataset itself, and
the result is always a subsequence of the input (same rows, input order). -/
theorem filterData_conjunction (data : List Row) (filters : List FilterPred) :
    (filters = [] → filterData data filters = data) ∧
    (filterData data filters).Sublist data ∧
    (∀ row, row ∈ filterData data filters ↔
      row ∈ data ∧ filters.all (fun f => evalPred row f) = true) := by
  refine ⟨fun h => by simp [filterData, h], ?_, ?_⟩
  · cases filters with
    | nil => exact List.Sublist.refl data
    | cons f fs => simp only [filterData, List.isEmpty_cons]; exact List.filter_sublist data
  · intro row
    cases filters with
    | nil => simp [filterData]
    | cons f fs => simp [filterData, List.mem_filter]

/-- Witness for C1 at a concrete dataset and the empty filter set. -/
theorem filterData_conjunction_witness :
    filterData [[("a", Value.str "x")]] [] = [[("a", Value.str "x")]] :=
  (filterData_conjunction [[("a", Value.str "x")]] []).1 rfl

/-- C5 counterexample: the claim says the `!=` operator ignores case, so a
filter `!=` with value "Bob" would exclude a row whose value is "bob"; in the
code `!=` is JS loose inequality, which is case-sensitive, so that row is in
fact retained (the predicate evaluates to true). -/
theorem neq_case_sensitive_cex :
    evalPred [("name", Value.str "bob")] ⟨"f1", "name", Op.neq, "Bob"⟩ = true := by
  decide

/-- C5 (amended): `contains`, `equals`, `starts_with` and `ends_with` treat
values differing only in letter case as equal — whenever the lower-cased
string form of the (non-null) row value equals the lower-cased filter value,
the predicate passes; `!=`, however, is case-sensitive loose inequality, so
with filter value "Bob" it retains (not excludes) a row whose value is the
distinct string "bob". -/
theorem caseInsensitive_amended :
    (∀ (row : Row) (i c v : String) (op : Op),
      (op = Op.contains ∨ op = Op.equals ∨ op = Op.startsWith ∨ op = Op.endsWith) →
      rowGet row c ≠ Value.null →
      strLower (valueToString (rowGet row c)) = strLower v →
      evalPred row ⟨i, c, op, v⟩ = true) ∧
    (∀ (i c s v : String), s ≠ v →
      evalPred [(c, Value.str s)] ⟨i, c, Op.neq, v⟩ = true) := by
  constructor
  · intro row i c v op hop hnn hlow
    rcases hop with rfl | rfl | rfl | rfl <;>
      simp only [evalPred, if_neg hnn, hlow] <;>
      simp [strContains, strStarts, strEnds]
  · intro i c s v hsv
    have hget : rowGet [(c, Value.str s)] c = Value.str s := by
      simp [rowGet, List.find?]
    simp [evalPred, hget, looseEqB, hsv]

/-- Witness for C5 (amended): with filter value "Bob", `equals` retains a row
whose value is "bob", and so does `!=`. -/
theorem caseInsensitive_amended_witness :
    evalPred [("name", Value.str "bob")] ⟨"f1", "name", Op.equals, "Bob"⟩ = true ∧
    evalPred [("name", Value.str "bob")] ⟨"f1", "name", Op.neq, "Bob"⟩ = true :=
  ⟨caseInsensitive_amended.1 [("name", Value.str "bob")] "f1" "name" "Bob" Op.equals
      (Or.inr (Or.inl rfl)) (by decide) (by decide),
   caseInsensitive_amended.2 "f1" "name" "bob" "Bob" (by decide)⟩

/-- C6 counterexample: the claim says a row is retained under `>` only when
both sides coerce to finite numbers; the code only checks `isNaN`, so the row
value "Infinity" (which coerces to the non-finite Infinity) is retained by
`> 5`. -/
theorem numericGt_infinity_cex :
    evalPred [("a", Value.str "Infinity")] ⟨"f1", "a", Op.gt, "5"⟩ = true := by
  decide

/-- C6 (amended): for the operators `>`, `<`, `>=`, `<=`, a row is retained
iff its value is non-null, both the row value and the filter value coerce to
numbers that are not NaN (the code checks `isNaN`, so infinite values are
allowed), and the JS numeric comparison holds; when either side coerces to
NaN — e.g. non-numeric text — the predicate simply evaluates to false (the
row is excluded; evaluation is a total boolean function and never throws). -/
theorem numericOps_amended (row : Row) (f : FilterPred)
    (hop : f.operator = Op.gt ∨ f.operator = Op.lt ∨ f.operator = Op.ge ∨
      f.operator = Op.le) :
    evalPred row f = true ↔
      (rowGet row f.column ≠ Value.null ∧
       (toNumber (rowGet row f.column)).isNaN = false ∧
       (jsStrToNumber f.value).isNaN = false ∧
       numCmpB f.operator (toNumber (rowGet row f.column)) (jsStrToNumber f.value) = true) := by
  by_cases hnn : rowGet row f.column = Value.null
  · simp [evalPred, hnn]
  · rcases hop with hop | hop | hop | hop <;>
      simp [evalPred, hnn, hop, numCmpB] <;>
      by_cases h1 : (toNumber (rowGet row f.column)).isNaN <;>
      by_cases h2 : (jsStrToNumber f.value).isNaN <;>
      simp [h1, h2]

/-- Witness for C6 (amended) at a concrete numeric row and filter. -/
theorem numericOps_amended_witness :
    evalPred [("a", Value.num (.fin 7))] ⟨"f1", "a", Op.gt, "5"⟩ = true :=
  (numericOps_amended [("a", Value.num (.fin 7))] ⟨"f1", "a", Op.gt, "5"⟩
      (Or.inl rfl)).mpr ⟨by decide, by decide, by decide, by decide⟩

/-- C10: `equals` and `!=` are not logical negations of each other — with row
value "bob" and filter value "Bob", the `equals` predicate passes (via the
case-insensitive string match) and the `!=` predicate also passes (loose
inequality is case-sensitive), so the same row is retained under both. -/
theorem equals_neq_both_pass :
    evalPred [("name", Value.str "bob")] ⟨"f1", "name", Op.equals, "Bob"⟩ = true ∧
    evalPred [("name", Value.str "bob")] ⟨"f1", "name", Op.neq, "Bob"⟩ = true :=
  ⟨by decide, by decide⟩

/-- Model of `.replace(/^"|"$/g, '')`: remove one leading and one trailing
double quote. -/
def stripQuotes (s : String) : String :=
  let l1 := match s.toList with
    | '"' :: rest => rest
    | l => l
  let l2 := match l1.reverse with
    | '"' :: rest => rest.reverse
    | _ => l1
  ⟨l2⟩

/-- A CSV header token: `h.trim().replace(/^"|"$/g, '')`. -/
def parseHeaderCell (h : String) : String := stripQuotes (strTrim h)

/-- The header row of the CSV parser: split the first line on commas and
clean each token. -/
def csvHeaders (line : String) : List String :=
  (strSplit line ',').map parseHeaderCell

/-- One CSV data cell: trim, strip quotes, and store as a number when the
cleaned text is non-empty and coerces to a non-NaN number, else as the
string itself. -/
def csvCell (s : String) : Value :=
  let val := stripQuotes (strTrim s)
  if !(jsStrToNumber val).isNaN && val != "" then Value.num (jsStrToNumber val)
  else Value.str val

/-- JS object property assignment `obj[k] = v`: overwrite the existing
binding in place, or append a new one. -/
def objSet (r : Row) (k : String) (v : Value) : Row :=
  if r.any (fun p => decide (p.1 = k)) then
    r.map (fun p => if p.1 = k then (k, v) else p)
  else r ++ [(k, v)]

/-- Build one parsed CSV row: `headers.forEach((header, index) =>
obj[header] = cell(currentLine[index] ?? ""))`. -/
def buildRow (headers : List String) (fields : List String) : Row :=
  headers.enum.foldl (fun r p => objSet r p.2 (csvCell (fields.getD p.1 ""))) []

/-- The data-line loop of the CSV parser: a line contributes a row iff it
splits into at least as many comma-separated fields as there are headers. -/
def parseRows (headers : List String) : List String → List Row
  | [] => []
  | l :: ls =>
    let fields := strSplit l ','
    if headers.length ≤ fields.length then
      buildRow headers fields :: parseRows headers ls
    else parseRows headers ls

/-- The non-blank lines of the CSV text: split on newline, drop lines that
are empty after trimming. -/
def csvLines (text : String) : List String :=
  (strSplit text '\n').filter (fun l => strTrim l != "")

/-- The CSV branch of `parseFile`: fewer than 2 non-blank lines resolves to
the empty dataset (not an error); otherwise the first line gives the
headers and the remaining lines are parsed by the data-line loop. -/
def parseCSV (text : String) : List Row :=
  match csvLines text with
  | [] => []
  | l0 :: rest => if rest.isEmpty then [] else parseRows (csvHeaders l0) rest

/-- The data-line loop keeps exactly the lines with at least as many fields
as headers, in order, each parsed by `buildRow`. -/
theorem parseRows_eq (headers : List String) (ls : List String) :
    parseRows headers ls =
      (ls.filter (fun l => decide (headers.length ≤ (strSplit l ',').length))).map
        (fun l => buildRow headers (strSplit l ',')) := by
  induction ls with
  | nil => rfl
  | cons l ls ih =>
    by_cases h : headers.length ≤ (strSplit l ',').length <;>
      simp [parseRows, h, ih]

/-- C2: the CSV parser keeps a data line as a row iff the line has at least
as many comma-separated fields as there are headers (shorter lines are
dropped entirely, never padded), and an input with fewer than 2 non-blank
lines yields the empty dataset rather than an error. -/
theorem parseCSV_spec (text : String) :
    ((csvLines text).length < 2 → parseCSV text = []) ∧
    (∀ l0 rest, csvLines text = l0 :: rest → rest ≠ [] →
      parseCSV text =
        (rest.filter (fun l =>
          decide ((csvHeaders l0).length ≤ (strSplit l ',').length))).map
          (fun l => buildRow (csvHeaders l0) (strSplit l ','))) := by
  constructor
  · intro h
    unfold parseCSV
    match hm : csvLines text with
    | [] => rfl
    | l0 :: rest =>
      rw [hm] at h
      simp only [List.length_cons] at h
      have : rest = [] := by
        cases rest with
        | nil => rfl
        | cons a t => simp at h; omega
      simp [this]
  · intro l0 rest h hne
    unfold parseCSV
    rw [h]
    simp only [List.isEmpty_iff]
    rw [if_neg hne]
    exact parseRows_eq _ _

/-- Witness for C2: a concrete CSV text whose short line is dropped, whose
long line keeps only the header-indexed fields, and a concrete text with a
single non-blank line that parses to the empty dataset. -/
theorem parseCSV_spec_witness :
    parseCSV "a,b\nx,1\nshort\np,2,9" =
      (["x,1", "short", "p,2,9"].filter (fun l =>
        decide ((csvHeaders "a,b").length ≤ (strSplit l ',').length))).map
        (fun l => buildRow (csvHeaders "a,b") (strSplit l ',')) ∧
    parseCSV "a,b" = [] ∧
    parseCSV "a,b\nx,1\nshort\np,2,9" =
      [[("a", Value.str "x"), ("b", Value.num (.fin 1))],
       [("a", Value.str "p"), ("b", Value.num (.fin 2))]] :=
  ⟨(parseCSV_spec "a,b\nx,1\nshort\np,2,9").2 "a,b" ["x,1", "short", "p,2,9"]
      (by decide) (by decide),
   (parseCSV_spec "a,b").1 (by decide),
   by decide⟩

/-- JS `parseFloat(s)`: skip leading whitespace, optional sign, then the
longest prefix that is an `Infinity` literal or a decimal literal (digits,
optional fraction, optional exponent with at least one digit); trailing junk
is ignored; no valid prefix means NaN. -/
def jsParseFloat (s : String) : JsNum :=
  let t := strTrim s
  let (neg, cs) := match t.toList with
    | '+' :: cs => (false, cs)
    | '-' :: cs => (true, cs)
    | cs => (false, cs)
  if cs.take 8 = "Infinity".toList then (if neg then .negInf else .posInf)
  else
    let ip := cs.takeWhile Char.isDigit
    let r1 := cs.dropWhile Char.isDigit
    let fp := match r1 with
      | '.' :: rest => rest.takeWhile Char.isDigit
      | _ => []
    let r2 := match r1 with
      | '.' :: rest => rest.dropWhile Char.isDigit
      | _ => r1
    if ip.isEmpty && fp.isEmpty then .nan
    else
      let base : ℕ × ℕ := (digitsToNat ip * 10 ^ fp.length + digitsToNat fp, 10 ^ fp.length)
      let scaled := match r2 with
        | 'e' :: rest => applyExp base rest
        | 'E' :: rest => applyExp base rest
        | _ => base
      .fin (if neg then -mkRat scaled.1 scaled.2 else mkRat scaled.1 scaled.2)
where
  /-- Apply an exponent prefix `[+|-] digits` if present; an `e` not
  followed by a digit is trailing junk and leaves the base unscaled. -/
  applyExp (base : ℕ × ℕ) (rest : List Char) : ℕ × ℕ :=
    let (negE, ds0) := match rest with
      | '+' :: ds => (false, ds)
      | '-' :: ds => (true, ds)
      | ds => (false, ds)
    let ds := ds0.takeWhile Char.isDigit
    if ds.isEmpty then base
    else if negE then (base.1, base.2 * 10 ^ digitsToNat ds)
    else (base.1 * 10 ^ digitsToNat ds, base.2)

/-- The total order used to model `values.sort((a, b) => a - b)` on the
collected numeric values: the extended-real order on non-NaN values (NaN is
placed last but is filtered out before any sort in the code under study). -/
def sortLeB : JsNum → JsNum → Bool
  | _, .nan => true
  | .nan, _ => false
  | .negInf, _ => true
  | _, .negInf => false
  | .fin a, .fin b => decide (a ≤ b)
  | .fin _, .posInf => true
  | .posInf, .posInf => true
  | .posInf, .fin _ => false

/-- Propositional form of `sortLeB`, for use with `List.insertionSort`. -/
def sortLe (a b : JsNum) : Prop := sortLeB a b = true

instance : DecidableRel sortLe := fun a b =>
  inferInstanceAs (Decidable (sortLeB a b = true))

instance : IsTotal JsNum sortLe where
  total a b := by
    cases a <;> cases b <;> simp [sortLe, sortLeB]
    exact le_total _ _

instance : IsTrans JsNum sortLe where
  trans a b c hab hbc := by
    cases a <;> cases b <;> cases c <;> simp_all [sortLe, sortLeB]
    exact le_trans hab hbc

/-- One record of `calculateBoxPlotStats`: group label, the five order
statistics, and the `[min, max]` range passed to the bar chart. -/
structure BoxStat where
  name : String
  min : JsNum
  q1 : JsNum
  median : JsNum
  q3 : JsNum
  max : JsNum
  range : JsNum × JsNum
deriving DecidableEq, Repr

/-- The numeric reading `parseFloat(String(row[valueKey]))` of a row's value
column. -/
def numericVal (row : Row) (vk : String) : JsNum :=
  jsParseFloat (valueToString (rowGet row vk))

/-- The value list `groups[g]` of the grouping loop: the non-NaN numeric
readings of the rows whose grouping column stringifies to `g`, in data
order. -/
def collectValues (data : List Row) (gk vk g : String) : List JsNum :=
  data.filterMap (fun row =>
    if valueToString (rowGet row gk) = g ∧ (numericVal row vk).isNaN = false then
      some (numericVal row vk)
    else none)

/-- First-occurrence deduplication (insertion order of a JS object's or
Set's keys as they are first added). -/
def dedupFirst (seen : List String) : List String → List String
  | [] => []
  | x :: xs => if x ∈ seen then dedupFirst seen xs else x :: dedupFirst (x :: seen) xs

/-- The keys of the `groups` record in insertion order: the grouping-column
strings of the rows whose value column reads as a non-NaN number, first
occurrences only. -/
def statLabels (data : List Row) (gk vk : String) : List String :=
  dedupFirst [] (data.filterMap (fun row =>
    if (numericVal row vk).isNaN = false then some (valueToString (rowGet row gk))
    else none))

/-- Whether a string is a canonical array-index property key in JS (a
canonical base-10 integer below 2^32 − 1): such keys are enumerated first
and in ascending numeric order by `Object.keys`. -/
def isArrayIndexKey (s : String) : Bool :=
  let cs := s.toList
  !cs.isEmpty && cs.all Char.isDigit &&
    (decide (s = "0") || decide (cs.headD '0' ≠ '0')) &&
    decide (digitsToNat cs < 4294967295)

/-- Numeric order on array-index keys. -/
def numKeyLe (a b : String) : Prop := digitsToNat a.toList ≤ digitsToNat b.toList

instance : DecidableRel numKeyLe := fun a b =>
  inferInstanceAs (Decidable (digitsToNat a.toList ≤ digitsToNat b.toList))

/-- `Object.keys` of a JS object whose keys were inserted in the given
order: array-index keys first in ascending numeric order, then the
remaining keys in insertion order (ECMAScript OrdinaryOwnPropertyKeys). -/
def objKeys (ks : List String) : List String :=
  List.insertionSort numKeyLe (ks.filter isArrayIndexKey) ++
    ks.filter (fun k => !isArrayIndexKey k)

/-- The per-group stats of `calculateBoxPlotStats`: sort the group's values
ascending and read the five order statistics.  The source indexes with
`Math.floor(values.length * 0.25)` etc.; for 64-bit floats these products
are exact, so the indices are the natural-number divisions `n / 4`, `n / 2`
and `3 * n / 4`. -/
def mkStat (g : String) (vals : List JsNum) : BoxStat :=
  let values := List.insertionSort sortLe vals
  let n := values.length
  let vmin := values.getD 0 .nan
  let vmax := values.getD (n - 1) .nan
  { name := g, min := vmin,
    q1 := values.getD (n / 4) .nan,
    median := values.getD (n / 2) .nan,
    q3 := values.getD (3 * n / 4) .nan,
    max := vmax,
    range := (vmin, vmax) }

/-- `calculateBoxPlotStats` of ChartRenderer: group the rows' numeric value
readings by the string of the grouping column (a JS record, modelled by its
insertion-ordered key list `statLabels` and per-key lists `collectValues`),
then map over `Object.keys` computing each group's stats. -/
def calculateBoxPlotStats (data : List Row) (groupKey valueKey : String) : List BoxStat :=
  (objKeys (statLabels data groupKey valueKey)).map
    (fun g => mkStat g (collectValues data groupKey valueKey g))

/-- Membership in a first-occurrence deduplication. -/
theorem dedupFirst_mem (x : String) :
    ∀ (l seen : List String), x ∈ dedupFirst seen l ↔ x ∈ l ∧ x ∉ seen := by
  intro l
  induction l with
  | nil => intro seen; simp [dedupFirst]
  | cons y ys ih =>
    intro seen
    by_cases hy : y ∈ seen
    · rw [dedupFirst, if_pos hy, ih]
      constructor
      · rintro ⟨hxl, hxs⟩
        exact ⟨List.mem_cons_of_mem _ hxl, hxs⟩
      · rintro ⟨hxl, hxs⟩
        rcases List.mem_cons.mp hxl with rfl | hxl
        · exact absurd hy hxs
        · exact ⟨hxl, hxs⟩
    · rw [dedupFirst, if_neg hy]
      constructor
      · intro hx
        rcases List.mem_cons.mp hx with rfl | hx
        · exact ⟨List.mem_cons_self _ _, hy⟩
        · obtain ⟨hxl, hxs⟩ := (ih (y :: seen)).mp hx
          exact ⟨List.mem_cons_of_mem _ hxl,
            fun hs => hxs (List.mem_cons_of_mem _ hs)⟩
      · rintro ⟨hxl, hxs⟩
        rcases List.mem_cons.mp hxl with rfl | hxl
        · exact List.mem_cons_self _ _
        · by_cases hxy : x = y
          · subst hxy; exact List.mem_cons_self _ _
          · refine List.mem_cons_of_mem _ ((ih (y :: seen)).mpr ⟨hxl, fun hs => ?_⟩)
            rcases List.mem_cons.mp hs with h | h
            · exact hxy h
            · exact hxs h

/-- A group label has at least one collected value. -/
theorem collectValues_ne_nil (data : List Row) (gk vk g : String)
    (h : g ∈ statLabels data gk vk) : collectValues data gk vk g ≠ [] := by
  have hmem := ((dedupFirst_mem g _ []).mp h).1
  obtain ⟨row, hrow, hsome⟩ := List.mem_filterMap.mp hmem
  by_cases hc : (numericVal row vk).isNaN = false
  · rw [if_pos hc] at hsome
    injection hsome with hg
    intro hnil
    have : numericVal row vk ∈ collectValues data gk vk g :=
      List.mem_filterMap.mpr ⟨row, hrow, by rw [if_pos ⟨hg, hc⟩]⟩
    rw [hnil] at this
    exact List.not_mem_nil _ this
  · rw [if_neg hc] at hsome
    exact absurd hsome (Option.some_ne_none _).symm

/-- `⌊n · 0.5⌋ = n / 2` over the rationals. -/
theorem floor_half (n : ℕ) : Nat.floor ((n : ℚ) * 0.5) = n / 2 := by
  have h : (n : ℚ) * 0.5 = (n : ℚ) / ((2 : ℕ) : ℚ) := by push_cast; ring_nf
  rw [h, Nat.floor_div_nat, Nat.floor_natCast]

/-- `⌊n · 0.25⌋ = n / 4` over the rationals. -/
theorem floor_quarter (n : ℕ) : Nat.floor ((n : ℚ) * 0.25) = n / 4 := by
  have h : (n : ℚ) * 0.25 = (n : ℚ) / ((4 : ℕ) : ℚ) := by push_cast; ring_nf
  rw [h, Nat.floor_div_nat, Nat.floor_natCast]

/-- `⌊n · 0.75⌋ = 3n / 4` over the rationals. -/
theorem floor_three_quarters (n : ℕ) : Nat.floor ((n : ℚ) * 0.75) = 3 * n / 4 := by
  have h : (n : ℚ) * 0.75 = ((3 * n : ℕ) : ℚ) / ((4 : ℕ) : ℚ) := by
    push_cast; ring_nf
  rw [h, Nat.floor_div_nat, Nat.floor_natCast]

/-- C3: every stat record of the box-plot statistics reads its five fields
off a sorted permutation `s` of its group's collected numeric values, of
length `n ≥ 1`, at the nearest-rank zero-indexed positions: min at 0, max at
`n − 1`, median at `⌊n·0.5⌋`, first quartile at `⌊n·0.25⌋`, third quartile
at `⌊n·0.75⌋` (no interpolation). -/
theorem boxStats_quartiles (data : List Row) (gk vk : String) (st : BoxStat)
    (h : st ∈ calculateBoxPlotStats data gk vk) :
    ∃ s : List JsNum, s.Perm (collectValues data gk vk st.name) ∧
      List.Sorted sortLe s ∧ 1 ≤ s.length ∧
      st.min = s.getD 0 .nan ∧
      st.max = s.getD (s.length - 1) .nan ∧
      st.median = s.getD (Nat.floor ((s.length : ℚ) * 0.5)) .nan ∧
      st.q1 = s.getD (Nat.floor ((s.length : ℚ) * 0.25)) .nan ∧
      st.q3 = s.getD (Nat.floor ((s.length : ℚ) * 0.75)) .nan := by
  obtain ⟨g, hg, rfl⟩ := List.mem_map.mp h
  have hname : (mkStat g (collectValues data gk vk g)).name = g := rfl
  have hstat : g ∈ statLabels data gk vk := by
    rcases List.mem_append.mp hg with hl | hl
    · exact List.mem_filter.mp
        ((List.perm_insertionSort numKeyLe _).subset hl) |>.1
    · exact (List.mem_filter.mp hl).1
  have hne := collectValues_ne_nil data gk vk g hstat
  refine ⟨List.insertionSort sortLe (collectValues data gk vk g),
    ?_, ?_, ?_, ?_, ?_, ?_, ?_, ?_⟩
  · rw [hname]; exact List.perm_insertionSort sortLe _
  · exact List.sorted_insertionSort sortLe _
  · rw [(List.perm_insertionSort sortLe _).length_eq]
    exact Nat.one_le_iff_ne_zero.mpr (fun h0 => hne (List.length_eq_zero.mp h0))
  · rfl
  · rfl
  · rw [floor_half]; rfl
  · rw [floor_quarter]; rfl
  · rw [floor_three_quarters]; rfl

/-- The ten-row dataset of the C3 example: one group "a" with value column
holding 1..10. -/
def dataTen : List Row :=
  [[("g", Value.str "a"), ("v", Value.str "1")],
   [("g", Value.str "a"), ("v", Value.str "2")],
   [("g", Value.str "a"), ("v", Value.str "3")],
   [("g", Value.str "a"), ("v", Value.str "4")],
   [("g", Value.str "a"), ("v", Value.str "5")],
   [("g", Value.str "a"), ("v", Value.str "6")],
   [("g", Value.str "a"), ("v", Value.str "7")],
   [("g", Value.str "a"), ("v", Value.str "8")],
   [("g", Value.str "a"), ("v", Value.str "9")],
   [("g", Value.str "a"), ("v", Value.str "10")]]

/-- The stat record of the C3 example: for values [1..10], min=1, Q1=3,
median=6, Q3=8, max=10. -/
def statTen : BoxStat :=
  { name := "a", min := .fin 1, q1 := .fin 3, median := .fin 6, q3 := .fin 8,
    max := .fin 10, range := (.fin 1, .fin 10) }

/-- Witness for C3: the box-plot statistics of the values [1..10] are
exactly min=1, Q1=3, median=6, Q3=8, max=10, and the stat record satisfies
the quartile characterization. -/
theorem boxStats_quartiles_witness :
    calculateBoxPlotStats dataTen "g" "v" = [statTen] ∧
    (∃ s : List JsNum, s.Perm (collectValues dataTen "g" "v" statTen.name) ∧
      List.Sorted sortLe s ∧ 1 ≤ s.length ∧
      statTen.min = s.getD 0 .nan ∧
      statTen.max = s.getD (s.length - 1) .nan ∧
      statTen.median = s.getD (Nat.floor ((s.length : ℚ) * 0.5)) .nan ∧
      statTen.q1 = s.getD (Nat.floor ((s.length : ℚ) * 0.25)) .nan ∧
      statTen.q3 = s.getD (Nat.floor ((s.length : ℚ) * 0.75)) .nan) :=
  ⟨by decide, boxStats_quartiles dataTen "g" "v" statTen (by decide)⟩

/-- The C7 counterexample dataset with numeric-string group labels inserted
in the order "10", "2". -/
def dataC7 : List Row :=
  [[("g", Value.str "10"), ("v", Value.str "1")],
   [("g", Value.str "2"), ("v", Value.str "1")]]

/-- The second C7 counterexample dataset: group "A" appears first in the
dataset but its first row has a non-numeric value, so "A" enters the groups
record only at the third row, after "B". -/
def dataC7b : List Row :=
  [[("g", Value.str "A"), ("v", Value.str "x")],
   [("g", Value.str "B"), ("v", Value.str "1")],
   [("g", Value.str "A"), ("v", Value.str "2")]]

/-- C7 counterexample: the output order of the box-plot stats is not the
insertion order of first appearance of each group label in the dataset —
(i) `Object.keys` enumerates array-index labels ("10", "2") in ascending
numeric order, not insertion order, and (ii) a label whose first dataset
appearance has a non-numeric value is keyed only at its first numeric
contribution. -/
theorem boxStats_order_cex :
    (calculateBoxPlotStats dataC7 "g" "v").map BoxStat.name ≠
      dedupFirst [] (dataC7.map (fun r => valueToString (rowGet r "g"))) ∧
    (calculateBoxPlotStats dataC7b "g" "v").map BoxStat.name ≠
      dedupFirst [] (dataC7b.map (fun r => valueToString (rowGet r "g"))) :=
  ⟨by decide, by decide⟩

/-- C7 (amended): the box-plot statistics list one record per group label
with at least one numeric value, ordered as JS `Object.keys` orders the
groups record: canonical array-index labels first in ascending numeric
order, then the remaining labels in insertion order of their first numeric
contribution; in particular, when no group label is an array-index string,
the output order is exactly the insertion order of first (numeric)
appearance. -/
theorem boxStats_order_amended (data : List Row) (gk vk : String) :
    (calculateBoxPlotStats data gk vk).map BoxStat.name =
      objKeys (statLabels data gk vk) ∧
    ((∀ g ∈ statLabels data gk vk, isArrayIndexKey g = false) →
      (calculateBoxPlotStats data gk vk).map BoxStat.name =
        statLabels data gk vk) := by
  have hmap : (calculateBoxPlotStats data gk vk).map BoxStat.name =
      objKeys (statLabels data gk vk) := by
    unfold calculateBoxPlotStats
    rw [List.map_map]
    have : (BoxStat.name ∘ fun g => mkStat g (collectValues data gk vk g)) = id :=
      funext (fun g => rfl)
    rw [this, List.map_id]
  refine ⟨hmap, fun h => ?_⟩
  rw [hmap]
  unfold objKeys
  have h1 : (statLabels data gk vk).filter isArrayIndexKey = [] := by
    rw [List.filter_eq_nil_iff]
    intro g hg
    simp [h g hg]
  have h2 : (statLabels data gk vk).filter (fun k => !isArrayIndexKey k) =
      statLabels data gk vk := by
    rw [List.filter_eq_self]
    intro g hg
    simp [h g hg]
  rw [h1, h2]
  rfl

/-- Witness for C7 (amended) on a dataset with no array-index group label. -/
theorem boxStats_order_amended_witness :
    (calculateBoxPlotStats dataC7b "g" "v").map BoxStat.name =
      statLabels dataC7b "g" "v" :=
  (boxStats_order_amended dataC7b "g" "v").2 (by decide)

/-- JS `x || 0` for a number `x`: NaN and `0` give `0`, everything else is
itself. -/
def jsOrZero (x : JsNum) : JsNum :=
  match x with
  | .nan => .fin 0
  | .fin q => if q = 0 then .fin 0 else .fin q
  | x => x

/-- The transposed mini-dataset of one facet chart: one row per selected
metric, `{ metric, value: Number(row[metric]) || 0 }`. -/
def facetRow (row : Row) (metrics : List String) : List (String × JsNum) :=
  metrics.map (fun m => (m, jsOrZero (toNumber (rowGet row m))))

/-- The `charts` computation of the FacetCharts component: for each selected
item, filter the rows whose grouping column stringifies to the item, drop
the item if none matches, otherwise transpose the first matching row over
the selected metrics. -/
def facetCharts (data : List Row) (gk : String) (items metrics : List String) :
    List (String × List (String × JsNum)) :=
  items.filterMap (fun item =>
    match data.filter (fun r => decide (valueToString (rowGet r gk) = item)) with
    | [] => none
    | row :: _ => some (item, facetRow row metrics))

/-- `find?` returns the head of the filtered list. -/
theorem find?_eq_head_filter {α : Type} (p : α → Bool) (l : List α) :
    l.find? p = (l.filter p).head? := by
  induction l with
  | nil => rfl
  | cons a t ih =>
    by_cases h : p a
    · rw [List.find?_cons_of_pos _ h, List.filter_cons_of_pos h]
      rfl
    · rw [List.find?_cons_of_neg _ h, List.filter_cons_of_neg h, ih]

/-- The two-row dataset of the C4 example. -/
def facetExample : List Row :=
  [[("entity", Value.str "A"), ("x", Value.num (.fin 1)), ("y", Value.num (.fin 2))],
   [("entity", Value.str "B"), ("x", Value.num (.fin 3)), ("y", Value.num (.fin 4))]]

/-- C4: the facet transform means, for every selected entity label, first
matching row only — it equals the filterMap that looks up the *first* row
whose grouping column string-equals the label (`find?`), omits the entity
when there is none, and otherwise emits one transposed row per selected
metric holding the metric name and the row's numeric value with non-numbers
defaulting to 0; on the spec's example it yields
`[{metric x, value 1}, {metric y, value 2}]` for entity "A". -/
theorem facetCharts_spec :
    (∀ (data : List Row) (gk : String) (items metrics : List String),
      facetCharts data gk items metrics =
        items.filterMap (fun item =>
          (data.find? (fun r => decide (valueToString (rowGet r gk) = item))).map
            (fun row => (item, facetRow row metrics)))) ∧
    facetCharts facetExample "entity" ["A"] ["x", "y"] =
      [("A", [("x", .fin 1), ("y", .fin 2)])] := by
  constructor
  · intro data gk items metrics
    unfold facetCharts
    apply List.filterMap_congr
    intro item _
    rw [find?_eq_head_filter]
    cases hf : data.filter (fun r => decide (valueToString (rowGet r gk) = item)) with
    | nil => rfl
    | cons row rest => rfl
  · decide

/-- The entity universe `uniqueGroupValues` of the FacetCharts component: a
Set built by `data.forEach(row => { if (row[groupKey]) values.add(String(row[groupKey])) })`,
i.e. the distinct strings of the truthy grouping values in first-occurrence
order. -/
def uniqueGroupValues (data : List Row) (gk : String) : List String :=
  dedupFirst [] (data.filterMap (fun r =>
    if truthy (rowGet r gk) = true then some (valueToString (rowGet r gk)) else none))

/-- A string is a selectable entity label iff some row has a truthy grouping
value with that string form. -/
theorem mem_uniqueGroupValues (data : List Row) (gk s : String) :
    s ∈ uniqueGroupValues data gk ↔
      ∃ row ∈ data, truthy (rowGet row gk) = true ∧
        valueToString (rowGet row gk) = s := by
  unfold uniqueGroupValues
  rw [dedupFirst_mem]
  simp only [List.not_mem_nil, not_false_iff, and_true, List.mem_filterMap]
  constructor
  · rintro ⟨row, hrow, hsome⟩
    by_cases ht : truthy (rowGet row gk) = true
    · rw [if_pos ht] at hsome
      injection hsome with h
      exact ⟨row, hrow, ht, h⟩
    · rw [if_neg ht] at hsome
      cases hsome
  · rintro ⟨row, hrow, ht, hs⟩
    exact ⟨row, hrow, by rw [if_pos ht, hs]⟩

/-- C9: a row whose grouping value is falsy (0, "", false, null/undefined,
NaN) contributes nothing to the entity universe — a label is selectable iff
some row carries it with a *truthy* grouping value, so if every row whose
string form is `s` is falsy, `s` is not selectable and can never yield a
facet chart. -/
theorem facetUniverse_falsy (data : List Row) (gk s : String) :
    (s ∈ uniqueGroupValues data gk ↔
      ∃ row ∈ data, truthy (rowGet row gk) = true ∧
        valueToString (rowGet row gk) = s) ∧
    ((∀ row ∈ data, valueToString (rowGet row gk) = s →
        truthy (rowGet row gk) = false) →
      s ∉ uniqueGroupValues data gk) := by
  refine ⟨mem_uniqueGroupValues data gk s, fun h hmem => ?_⟩
  obtain ⟨row, hrow, ht, hs⟩ := (mem_uniqueGroupValues data gk s).mp hmem
  rw [h row hrow hs] at ht
  cases ht

/-- Witness for C9: the row value 0 has string form "0", yet "0" is not a
selectable entity label. -/
theorem facetUniverse_falsy_witness :
    "0" ∉ uniqueGroupValues [[("g", Value.num (.fin 0))]] "g" :=
  (facetUniverse_falsy [[("g", Value.num (.fin 0))]] "g" "0").2 (by decide)

/-- The UI step of the application state machine. -/
inductive AppStep where
  | upload : AppStep
  | processing : AppStep
  | dashboard : AppStep
deriving DecidableEq, Repr

/-- The application state of App.tsx; the analysis report type is abstract
(`α`), as its contents never influence the orchestration. -/
structure AppState (α : Type) where
  step : AppStep
  data : List Row
  fileName : Option String
  analysis : Option α
  error : Option String
deriving DecidableEq, Repr

/-- `err.message || "An unexpected error occurred during analysis."`. -/
def errMsg (e : String) : String :=
  if e = "" then "An unexpected error occurred during analysis." else e

/-- The `handleFileUpload` orchestration of App.tsx as a state transition:
the parse step and the remote analysis are oracles supplying either a value
or an error message.  On entry the state moves to `processing` with the new
file name; a parse failure, an empty parsed dataset, or an analysis failure
lands in the catch block, which returns to the `upload` step with a single
error message and leaves `data`/`analysis` untouched; only full success
installs the dashboard. -/
def handleFileUpload {α : Type} (st : AppState α) (fname : String)
    (parseResult : Except String (List Row)) (analyzeResult : Except String α) :
    AppState α :=
  let st1 : AppState α :=
    { st with step := .processing, fileName := some fname, error := none }
  match parseResult with
  | .error e => { st1 with step := .upload, error := some (errMsg e) }
  | .ok d =>
    if d.isEmpty then
      { st1 with step := .upload, error := some (errMsg "Dataset appears to be empty.") }
    else
      match analyzeResult with
      | .error e => { st1 with step := .upload, error := some (errMsg e) }
      | .ok a =>
        { step := .dashboard, data := d, fileName := some fname,
          analysis := some a, error := none }

/-- C8: whenever parsing fails, the parsed dataset is empty, or the remote
analysis fails, the orchestrator ends at the `upload` step (no partial
dashboard) with a single user-visible error message, and the state holds no
data from the failed upload: the dataset and analysis fields are exactly
their pre-upload values. -/
theorem handleFileUpload_failure {α : Type} (st : AppState α) (fname : String)
    (pr : Except String (List Row)) (ar : Except String α)
    (hfail : ¬∃ d a, pr = Except.ok d ∧ d ≠ [] ∧ ar = Except.ok a) :
    (handleFileUpload st fname pr ar).step = AppStep.upload ∧
    (handleFileUpload st fname pr ar).data = st.data ∧
    (handleFileUpload st fname pr ar).analysis = st.analysis ∧
    ∃ m, (handleFileUpload st fname pr ar).error = some m := by
  cases pr with
  | error e => exact ⟨rfl, rfl, rfl, errMsg e, rfl⟩
  | ok d =>
    cases d with
    | nil => exact ⟨rfl, rfl, rfl, errMsg "Dataset appears to be empty.", rfl⟩
    | cons r rest =>
      cases ar with
      | error e => exact ⟨rfl, rfl, rfl, errMsg e, rfl⟩
      | ok a => exact absurd ⟨r :: rest, a, rfl, by simp, rfl⟩ hfail

/-- Witness for C8: a concrete failed parse returns to the upload step with
the pre-upload (empty) dataset and an error message. -/
theorem handleFileUpload_failure_witness :
    (handleFileUpload (⟨AppStep.upload, [], none, none, none⟩ : AppState Unit)
        "bad.csv" (Except.error "Invalid JSON file") (Except.ok ())).step =
      AppStep.upload ∧
    (handleFileUpload (⟨AppStep.upload, [], none, none, none⟩ : AppState Unit)
        "bad.csv" (Except.error "Invalid JSON file") (Except.ok ())).data = [] ∧
    (handleFileUpload (⟨AppStep.upload, [], none, none, none⟩ : AppState Unit)
        "bad.csv" (Except.error "Invalid JSON file") (Except.ok ())).analysis = none ∧
    ∃ m, (handleFileUpload (⟨AppStep.upload, [], none, none, none⟩ : AppState Unit)
        "bad.csv" (Except.error "Invalid JSON file") (Except.ok ())).error = some m :=
  handleFileUpload_failure ⟨AppStep.upload, [], none, none, none⟩ "bad.csv"
    (Except.error "Invalid JSON file") (Except.ok ())
    (by rintro ⟨d, a, h, -, -⟩; cases h)
